import Mathlib

/-!
Shallow embedding, in Lean 4, of the UP Experiences client-side website:
the validation/formatting utilities (`utils.js`), the remote-data client
(`api.js`), the contact-modal form handling (`modal.js`) and the
application controller (`main.js`).  Pure JavaScript string functions are
translated to Lean functions over `String`/`List Char`; the stateful
application controller becomes explicit state passing over an `AppState`
record together with a trace of emitted effects; DOM manipulation and the
actual network transport are elided, but every decision the JavaScript
code makes on data is kept.
-/

/-! ## Generic string helpers (JavaScript semantics) -/

/-- Decides whether `pat` is an initial segment of `l`. -/
def listStartsWith : List Char → List Char → Bool
  | [], _ => true
  | _ :: _, [] => false
  | a :: as, b :: bs => (a == b) && listStartsWith as bs

/-- Decides whether `pat` occurs contiguously inside `l`. -/
def listHasSub (pat : List Char) : List Char → Bool
  | [] => pat.isEmpty
  | a :: rest => listStartsWith pat (a :: rest) || listHasSub pat rest

/-- JavaScript `s.includes(pat)`. -/
def strContains (s pat : String) : Bool := listHasSub pat.toList s.toList

/-- The JavaScript whitespace class: the characters matched by the regex
class `\s` and stripped by `String.prototype.trim` (ECMAScript WhiteSpace
and LineTerminator code points). -/
def jsWhitespace (c : Char) : Bool :=
  c = ' ' || c = '\t' || c = '\n' || c.toNat = 11 || c.toNat = 12 || c = '\r' ||
  c.toNat = 0xA0 || c.toNat = 0x1680 || (0x2000 ≤ c.toNat && c.toNat ≤ 0x200A) ||
  c.toNat = 0x2028 || c.toNat = 0x2029 || c.toNat = 0x202F || c.toNat = 0x205F ||
  c.toNat = 0x3000 || c.toNat = 0xFEFF

/-- List-level trim: drop JavaScript whitespace from both ends. -/
def jsTrimList (l : List Char) : List Char :=
  List.rdropWhile jsWhitespace (l.dropWhile jsWhitespace)

/-- JavaScript `s.trim()`. -/
def jsTrim (s : String) : String := String.mk (jsTrimList s.toList)

/-! ## `utils.js` — validation and formatting utilities -/

/-- The digit characters of `s`, i.e. JavaScript `s.replace(/\D/g, '')`
viewed as a character list (`\d` is exactly `[0-9]`). -/
def digitsOf (s : String) : List Char := s.toList.filter Char.isDigit

/-- Function `validateBrazilianPhone` from `utils.js`: strip every non-digit, then
accept exactly 10 or exactly 11 remaining digits. -/
def validateBrazilianPhone (phone : String) : Bool :=
  let cleanPhone := digitsOf phone
  cleanPhone.length == 10 || cleanPhone.length == 11

/-- Function `formatBrazilianPhone` from `utils.js`: strip non-digits; on exactly 11
digits the regex replace `(\d{2})(\d{5})(\d{4}) ↦ ($1) $2-$3` rewrites the
whole string (the match necessarily covers all 11 digits); on exactly 10
digits `(\d{2})(\d{4})(\d{4}) ↦ ($1) $2-$3` likewise; otherwise the input
is returned unchanged. -/
def formatBrazilianPhone (phone : String) : String :=
  let cleanPhone := digitsOf phone
  if cleanPhone.length = 11 then
    String.mk ('(' :: cleanPhone.take 2 ++ ')' :: ' ' :: (cleanPhone.drop 2).take 5
      ++ '-' :: cleanPhone.drop 7)
  else if cleanPhone.length = 10 then
    String.mk ('(' :: cleanPhone.take 2 ++ ')' :: ' ' :: (cleanPhone.drop 2).take 4
      ++ '-' :: cleanPhone.drop 6)
  else phone

/-- The character class of the `validateName` regex
`[a-zA-ZÀ-ÿ\s\-]`: ASCII letters, the code points U+00C0 – U+00FF,
JavaScript whitespace, and the hyphen. -/
def nameClassChar (c : Char) : Bool :=
  (('a' ≤ c) && (c ≤ 'z')) || (('A' ≤ c) && (c ≤ 'Z')) ||
  ((0xC0 ≤ c.toNat) && (c.toNat ≤ 0xFF)) || jsWhitespace c || (c = '-')

/-- Function `validateName` from `utils.js`: trim, then test the anchored regex
`^[a-zA-ZÀ-ÿ\s\-]{2,}$`, i.e. at least two characters, all of them in the
class above. -/
def validateName (nm : String) : Bool :=
  let trimmedName := (jsTrim nm).toList
  decide (2 ≤ trimmedName.length) && trimmedName.all nameClassChar

/-- The image file extensions recognised by `isValidImageUrl`. -/
def imageExtensions : List String := ["jpg", "jpeg", "png", "gif", "bmp", "webp", "svg"]

/-- The regex `\.(jpg|jpeg|png|gif|bmp|webp|svg)(\?.*)?$` with the `i`
flag: the (ASCII-lowercased) string either ends with `.ext`, or contains
`.ext?` somewhere (the trailing `.*` then absorbs the rest). -/
def hasImageExtension (s : String) : Bool :=
  let lc := s.toList.map Char.toLower
  imageExtensions.any fun ext =>
    listStartsWith ("." ++ ext).toList.reverse lc.reverse ||
    listHasSub ("." ++ ext ++ "?").toList lc

/-- Function `isValidImageUrl` from `utils.js`.  The host URL parser (the
`try { new URL(trimmedUrl) } catch { return false }` probe) is not code of
this repository, so it is passed in as the predicate `urlParses`; every
other decision is translated from the source.  A missing (`none`) or empty
argument is falsy and rejected up front. -/
def isValidImageUrl (urlParses : String → Bool) (url : Option String) : Bool :=
  match url with
  | none => false
  | some u =>
    if u = "" then false
    else
      let trimmedUrl := jsTrim u
      if urlParses trimmedUrl then
        hasImageExtension trimmedUrl ||
        strContains trimmedUrl "images" || strContains trimmedUrl "photos" ||
        strContains trimmedUrl "media" || strContains trimmedUrl "img" ||
        strContains trimmedUrl "baserow.io" || strContains trimmedUrl "amazonaws.com" ||
        strContains trimmedUrl "cloudinary.com" || strContains trimmedUrl "unsplash.com"
      else false

/-! ## `api.js` — experience records and the remote-data client -/

/-- Object `thumbnails.card_cover` of a Baserow image attachment; its `url` field
may be absent. -/
structure CardCover where
  url : Option String
deriving DecidableEq

/-- The `thumbnails` object of an attachment. -/
structure Thumbnails where
  card_cover : Option CardCover
deriving DecidableEq

/-- One element of the `Image` array of an experience record. -/
structure Attachment where
  url : Option String
  thumbnails : Option Thumbnails
deriving DecidableEq

/-- A raw experience record as received from the API.  String-valued
fields that JavaScript may find `undefined` are `Option String`; the
`'Image URL'` column is called `imageUrlField` (Lean identifiers cannot
contain a space). -/
structure Experience where
  id : Int
  Name_pt_br : Option String
  Name_en_us : Option String
  Description_pt_br : Option String
  Description_en_us : Option String
  imageUrlField : Option String
  Image : Option (List Attachment)
deriving DecidableEq

/-- The formatted experience returned by `formatExperienceData`. -/
structure FormattedExperience where
  id : Int
  name : String
  description : String
  imageUrl : String
  originalData : Experience
deriving DecidableEq

/-- First try of the image extraction in `formatExperienceData`
(`api.js`, lines 152-160): the `'Image URL'` field, when it is a truthy
string, trimmed, and kept only when `isValidImageUrl` accepts it.  The
sentinel `""` plays the role of the untouched `let imageUrl = ''`. -/
def tryDirectUrl (urlParses : String → Bool) (field : Option String) : String :=
  match field with
  | some s =>
    if s ≠ "" then
      let candidateUrl := jsTrim s
      if isValidImageUrl urlParses (some candidateUrl) then candidateUrl else ""
    else ""
  | none => ""

/-- Second try of the image extraction in `formatExperienceData`
(`api.js`, lines 163-172): the first attachment's
`thumbnails.card_cover.url`, when the whole access path is truthy and
`isValidImageUrl` accepts the url. -/
def tryThumbUrl (urlParses : String → Bool) (image : Option (List Attachment)) : String :=
  match image with
  | some (a :: _) =>
    match a.thumbnails with
    | some th =>
      match th.card_cover with
      | some cc => if isValidImageUrl urlParses cc.url then cc.url.getD "" else ""
      | none => ""
    | none => ""
  | _ => ""

/-- Third try of the image extraction in `formatExperienceData`
(`api.js`, lines 175-183): the first attachment's original `url`, when
truthy and accepted by `isValidImageUrl`. -/
def tryOrigUrl (urlParses : String → Bool) (image : Option (List Attachment)) : String :=
  match image with
  | some (a :: _) =>
    match a.url with
    | some u =>
      if u ≠ "" then
        if isValidImageUrl urlParses (some u) then u else ""
      else ""
    | none => ""
  | _ => ""

/-- Function `formatExperienceData` from `api.js`, parameterised by the host URL
parser `urlParses` (see `isValidImageUrl`).  The three image tries mirror
the source; each later try runs only when the earlier ones left
`imageUrl` empty (the `!imageUrl` re-checks). -/
def formatExperienceData (urlParses : String → Bool) (experience : Experience)
    (language : String) : FormattedExperience :=
  let name := if language = "en-us" then experience.Name_en_us else experience.Name_pt_br
  let description :=
    if language = "en-us" then experience.Description_en_us else experience.Description_pt_br
  let i1 : String := tryDirectUrl urlParses experience.imageUrlField
  let i2 : String := if i1 = "" then tryThumbUrl urlParses experience.Image else i1
  let i3 : String := if i2 = "" then tryOrigUrl urlParses experience.Image else i2
  { id := experience.id
    name := match name with
      | some n => if n ≠ "" then n else "Experiência sem nome"
      | none => "Experiência sem nome"
    description := match description with
      | some d => if d ≠ "" then d else "Descrição não disponível"
      | none => "Descrição não disponível"
    imageUrl := i3
    originalData := experience }

/-- The name field selected by `formatExperienceData` for a language
(line `const name = language === 'en-us' ? … : …` of `api.js`). -/
def selectedName (experience : Experience) (language : String) : Option String :=
  if language = "en-us" then experience.Name_en_us else experience.Name_pt_br

/-- The description field selected by `formatExperienceData` for a language. -/
def selectedDescription (experience : Experience) (language : String) : Option String :=
  if language = "en-us" then experience.Description_en_us else experience.Description_pt_br

/-- The first element of the `Image` array, when the array is present and
non-empty. -/
def firstAttachment (e : Experience) : Option Attachment := e.Image.bind List.head?

/-- The first attachment's `thumbnails.card_cover.url`, when every link of
that access path is present. -/
def firstThumbUrl (e : Experience) : Option String :=
  ((firstAttachment e).bind Attachment.thumbnails).bind fun th => th.card_cover.bind CardCover.url

/-- The first attachment's original `url`, when present. -/
def firstOrigUrl (e : Experience) : Option String := (firstAttachment e).bind Attachment.url

/-- Spec-side image resolution, following the specification's words: a
first-match-wins chain trying (1) the direct image-URL field, (2) the
first attachment's card-sized thumbnail URL, (3) the first attachment's
original URL, each gated by `isValidImageUrl`, and otherwise the empty
string.  The winning direct field is taken in trimmed form, exactly as
`isValidImageUrl` itself reads it. -/
def specImageResolve (urlParses : String → Bool) (e : Experience) : String :=
  if isValidImageUrl urlParses e.imageUrlField then jsTrim (e.imageUrlField.getD "")
  else if isValidImageUrl urlParses (firstThumbUrl e) then (firstThumbUrl e).getD ""
  else if isValidImageUrl urlParses (firstOrigUrl e) then (firstOrigUrl e).getD ""
  else ""

/-- The JSON body built by `submitContact` in `api.js`: trimmed name,
trimmed phone, the experience id wrapped in a one-element array, and
`Parceiro_id` only when the coupon is truthy and stays truthy after
trimming. -/
structure ContactBody where
  Name : String
  Whatsapp : String
  Experiencias : List Int
  Parceiro_id : Option String
deriving DecidableEq

/-- Body construction of `submitContact` (`api.js`, lines 77-86). -/
def submitContactBody (name whatsapp : String) (experienceId : Int) (cupom : String) :
    ContactBody :=
  let base : ContactBody :=
    { Name := jsTrim name, Whatsapp := jsTrim whatsapp,
      Experiencias := [experienceId], Parceiro_id := none }
  if cupom ≠ "" ∧ jsTrim cupom ≠ "" then { base with Parceiro_id := some (jsTrim cupom) }
  else base

/-- A JavaScript error value as observed by the `catch` block of
`submitContact`: its `name` and its `message`. -/
structure JsError where
  name : String
  message : String
deriving DecidableEq

/-- The message of the error thrown by `submitContact` on a non-2xx
response: `` `HTTP error! status: ${response.status}` ``. -/
def httpErrorMessage (status : Nat) : String := "HTTP error! status: " ++ toString status

/-- The server-error message surfaced by `submitContact`. -/
def serverErrorMessage : String := "Erro no servidor. Tente novamente em alguns minutos."

/-- The connectivity-error message surfaced by `submitContact`. -/
def connectionErrorMessage : String := "Erro de conexão. Verifique sua internet e tente novamente."

/-- The generic fallback message surfaced by `submitContact`. -/
def genericErrorMessage : String := "Erro ao enviar mensagem. Tente novamente."

/-- The `catch` block of `submitContact` (`api.js`, lines 102-113): map
whatever error the `try` body threw to one of three fixed user-facing
messages.  The `try` body itself is modelled by `submitContactAttempt`. -/
def classifySubmitError (error : JsError) : String :=
  if strContains error.message "HTTP error" then serverErrorMessage
  else if (error.name == "TypeError") && strContains error.message "fetch" then
    connectionErrorMessage
  else genericErrorMessage

/-- Outcome of `await response.json()`: either the parsed record (a JSON
object, modelled as key-value pairs) or the parse error (typically a
SyntaxError) that the call throws on a body that is not valid JSON. -/
inductive JsonResult where
  | parsed (responseData : List (String × String))
  | parseError (error : JsError)
deriving DecidableEq

/-- A resolved `fetch` response as observed by `submitContact`: the `ok`
flag, the numeric status, and the outcome of `response.json()`. -/
structure HttpResponse where
  ok : Bool
  status : Nat
  jsonResult : JsonResult
deriving DecidableEq

/-- Outcome of the `fetch` call inside `submitContact`: the promise either
rejects with a network-level error (no response at all) or resolves to a
response. -/
inductive FetchResult where
  | fetchRejects (error : JsError)
  | fetchResolves (response : HttpResponse)
deriving DecidableEq

/-- Outcome of the `try` body of `submitContact`: the parsed response data
is returned, or an error is thrown into the `catch` block. -/
inductive AttemptOutcome where
  | returned (responseData : List (String × String))
  | thrown (error : JsError)
deriving DecidableEq

/-- What the caller of `submitContact` observes: the parsed response data,
or the user-facing message of the error re-thrown by the `catch` block. -/
inductive SubmitResult where
  | success (responseData : List (String × String))
  | failure (message : String)
deriving DecidableEq

/-- The `try` body of `submitContact` (`api.js`, lines 88-101), after the
request body has been built: `await fetch(...)` (a rejection propagates),
then `await response.json()` — which runs BEFORE the `response.ok` check,
so a parse error on the body is thrown first — then
`if (!response.ok) throw new Error('HTTP error! status: ...')`, else the
parsed data is returned. -/
def submitContactAttempt (fr : FetchResult) : AttemptOutcome :=
  match fr with
  | .fetchRejects e => .thrown e
  | .fetchResolves r =>
    match r.jsonResult with
    | .parseError e => .thrown e
    | .parsed responseData =>
      if !r.ok then .thrown (JsError.mk "Error" (httpErrorMessage r.status))
      else .returned responseData

/-- Whole-call behaviour of `submitContact` for a given fetch outcome: a
successful `try` body returns the parsed data; any thrown error is mapped
by the `catch` block to one of the three fixed user-facing messages, which
is what the caller observes. -/
def submitContactResult (fr : FetchResult) : SubmitResult :=
  match submitContactAttempt fr with
  | .returned d => .success d
  | .thrown e => .failure (classifySubmitError e)

/-! ## `modal.js` — contact form validation and submission -/

/-- Error message pushed by `validateForm` when the name is missing. -/
def nameRequiredError : String := "Nome é obrigatório"

/-- Error message pushed by `validateForm` when the name is invalid. -/
def nameInvalidError : String := "Nome deve ter pelo menos 2 caracteres e conter apenas letras"

/-- Error message pushed by `validateForm` when the phone is missing. -/
def whatsappRequiredError : String := "WhatsApp é obrigatório"

/-- Error message pushed by `validateForm` when the phone is invalid. -/
def whatsappInvalidError : String := "Número de WhatsApp inválido"

/-- Function `validateForm` from `modal.js`: the name checks push their error first,
then the phone checks push theirs. -/
def validateForm (name whatsapp : String) : List String :=
  (if name = "" then [nameRequiredError]
   else if validateName name then [] else [nameInvalidError]) ++
  (if whatsapp = "" then [whatsappRequiredError]
   else if validateBrazilianPhone whatsapp then [] else [whatsappInvalidError])

/-- Observable outcome of one run of `handleFormSubmit`: whether the remote
submission (`submitContact`) was invoked, and which validation error, if
any, was surfaced in the form-error element. -/
structure SubmitOutcome where
  submitCalled : Bool
  surfacedError : Option String
deriving DecidableEq

/-- The validation gate of `handleFormSubmit` (`modal.js`, lines 246-281):
trim both fields, run `validateForm`, surface `validationErrors[0]` and
abort when the list is non-empty, otherwise proceed to `submitContact`.
The DOM bookkeeping and the asynchronous part after a successful
validation are elided; `submitCalled` records reaching the
`submitContact` call. -/
def handleFormSubmit (rawName rawWhatsapp : String) : SubmitOutcome :=
  let name := jsTrim rawName
  let whatsapp := jsTrim rawWhatsapp
  match validateForm name whatsapp with
  | [] => { submitCalled := true, surfacedError := none }
  | e :: _ => { submitCalled := false, surfacedError := some e }

/-- Spec-side letter predicate, following the claim's words "letters
(including accented letters)": an ASCII letter or an accented Latin
letter.  The multiplication sign × (U+00D7) and the division sign ÷
(U+00F7) are arithmetic symbols, not letters, and are excluded. -/
def specLetterChar (c : Char) : Bool :=
  (('a' ≤ c) && (c ≤ 'z')) || (('A' ≤ c) && (c ≤ 'Z')) ||
  ((0xC0 ≤ c.toNat) && (c.toNat ≤ 0x17F) && !(c.toNat == 0xD7) && !(c.toNat == 0xF7))

/-- Spec-side name validity, following the claim's words: the trimmed
string has at least 2 characters and consists only of letters (including
accented letters), spaces, and hyphens. -/
def specNameValid (s : String) : Bool :=
  let t := (jsTrim s).toList
  decide (2 ≤ t.length) && t.all fun c => specLetterChar c || c = ' ' || c = '-'

/-! ## `main.js` — application controller state machine -/

/-- Side effects observable at the boundaries of the application
controller: a list fetch, a translation load, a render pass. -/
inductive Effect where
  | fetchExperiences
  | loadTranslations (lang : String)
  | render
deriving DecidableEq

/-- The module-level `appState` of `main.js`. -/
structure AppState where
  currentLang : String
  cachedData : Option (List Experience)
  translations : List (String × String)
  isLoading : Bool
deriving DecidableEq

/-- Function `loadTranslationsForLanguage` from `main.js`: try the requested
language; on failure fall back once to `pt-br` (mutating `currentLang`
before the fallback load, so the mutation survives even when the fallback
itself fails); a `pt-br` failure with no fallback left is fatal.  The
loader collaborator is the oracle `loadTr`; the returned triple is the
state after the call, the emitted effects, and whether the call returned
normally (`false` = it threw). -/
def loadTranslationsForLanguage (loadTr : String → Except Unit (List (String × String)))
    (st : AppState) (language : String) : AppState × List Effect × Bool :=
  match loadTr language with
  | .ok tr => ({ st with translations := tr }, [.loadTranslations language], true)
  | .error _ =>
    if language ≠ "pt-br" then
      match loadTr "pt-br" with
      | .ok tr =>
        ({ st with currentLang := "pt-br", translations := tr },
         [.loadTranslations language, .loadTranslations "pt-br"], true)
      | .error _ =>
        ({ st with currentLang := "pt-br" },
         [.loadTranslations language, .loadTranslations "pt-br"], false)
    else (st, [.loadTranslations language], false)

/-- Function `handleLanguageChange` from `main.js`: no-op when the language is
unchanged; otherwise set `currentLang`, load translations, and re-render
from the cache when one is present; on failure roll `currentLang` back and
re-throw.  It never touches `cachedData` and never calls
`fetchExperiences`. -/
def handleLanguageChange (loadTr : String → Except Unit (List (String × String)))
    (st : AppState) (newLang : String) : AppState × List Effect × Bool :=
  if newLang = st.currentLang then (st, [], true)
  else
    let previousLang := st.currentLang
    let r := loadTranslationsForLanguage loadTr { st with currentLang := newLang } newLang
    if r.2.2 then
      if r.1.cachedData.isSome then (r.1, r.2.1 ++ [.render], true)
      else (r.1, r.2.1, true)
    else ({ r.1 with currentLang := previousLang }, r.2.1, false)

/-- Function `loadAppData` from `main.js`: guarded by `isLoading`; loads
translations, fetches the experience list only when no cached list is
present (the fetch outcome is the oracle `fetchResult`), renders, and
always clears `isLoading`. -/
def loadAppData (loadTr : String → Except Unit (List (String × String)))
    (fetchResult : Except Unit (List Experience)) (st : AppState) :
    AppState × List Effect × Bool :=
  if st.isLoading then (st, [], true)
  else
    let r := loadTranslationsForLanguage loadTr { st with isLoading := true } st.currentLang
    if r.2.2 then
      match r.1.cachedData with
      | some _ => ({ r.1 with isLoading := false }, r.2.1 ++ [.render], true)
      | none =>
        match fetchResult with
        | .ok data =>
          ({ r.1 with cachedData := some data, isLoading := false },
           r.2.1 ++ [.fetchExperiences, .render], true)
        | .error _ =>
          ({ r.1 with isLoading := false }, r.2.1 ++ [.fetchExperiences], false)
    else ({ r.1 with isLoading := false }, r.2.1, false)

/-! ## Supporting lemmas -/

theorem dropWhile_head_false {α : Type} {p : α → Bool} {a : α} {l : List α}
    (h : List.dropWhile p (a :: l) = a :: l) : p a = false := by
  cases hp : p a with
  | false => rfl
  | true =>
    rw [List.dropWhile_cons, if_pos hp] at h
    have hle : (List.dropWhile p l).length ≤ l.length :=
      (List.dropWhile_suffix p).sublist.length_le
    rw [h] at hle
    simp at hle

theorem dropWhile_rdropWhile {α : Type} {p : α → Bool} {m : List α}
    (h : List.dropWhile p m = m) :
    List.dropWhile p (List.rdropWhile p m) = List.rdropWhile p m := by
  obtain ⟨t, ht⟩ := List.dropWhile_suffix (l := m.reverse) p
  have hm : m = (List.dropWhile p m.reverse).reverse ++ t.reverse := by
    have := congrArg List.reverse ht
    simpa using this.symm
  rw [List.rdropWhile]
  cases hrev : (List.dropWhile p m.reverse).reverse with
  | nil => rfl
  | cons a u =>
    have hma : m = a :: (u ++ t.reverse) := by rw [hm, hrev]; rfl
    have hpa : p a = false := dropWhile_head_false (by rw [← hma, h])
    rw [List.dropWhile_cons, if_neg (by simp [hpa])]

theorem jsTrimList_idem (l : List Char) : jsTrimList (jsTrimList l) = jsTrimList l := by
  unfold jsTrimList
  rw [dropWhile_rdropWhile (List.dropWhile_idempotent _ _), List.rdropWhile_idempotent]

theorem toList_mk (l : List Char) : (String.mk l).toList = l := rfl

theorem jsTrim_idem (s : String) : jsTrim (jsTrim s) = jsTrim s := by
  unfold jsTrim
  rw [toList_mk, jsTrimList_idem]

theorem isValid_ne_empty (v : String → Bool) (x : String)
    (h : isValidImageUrl v (some x) = true) : x ≠ "" := by
  intro hx
  rw [hx] at h
  simp [isValidImageUrl] at h

theorem isValid_getD_ne_empty (v : String → Bool) (o : Option String)
    (h : isValidImageUrl v o = true) : o.getD "" ≠ "" := by
  cases o with
  | none => simp [isValidImageUrl] at h
  | some u => exact isValid_ne_empty v u h

theorem isValidImageUrl_trim (v : String → Bool) (s : String) :
    isValidImageUrl v (some (jsTrim s)) = isValidImageUrl v (some s) := by
  by_cases h0 : s = ""
  · subst h0
    rfl
  · by_cases h1 : jsTrim s = ""
    · rw [h1]
      simp only [isValidImageUrl, if_neg h0, h1]
      have hckx : hasImageExtension "" = false := by decide
      cases hv : v "" <;> simp [hv, hckx, strContains, listHasSub]
    · simp only [isValidImageUrl, if_neg h0, if_neg h1, jsTrim_idem]

theorem tryDirectUrl_eq (v : String → Bool) (field : Option String) :
    tryDirectUrl v field =
      if isValidImageUrl v field then jsTrim (field.getD "") else "" := by
  cases field with
  | none => simp [tryDirectUrl, isValidImageUrl]
  | some s =>
    by_cases h0 : s = ""
    · subst h0
      simp [tryDirectUrl, isValidImageUrl]
    · simp only [tryDirectUrl, if_neg (by simp [h0] : ¬¬s ≠ ""), Option.getD_some,
        isValidImageUrl_trim]
      split <;> simp_all

theorem tryThumbUrl_eq (v : String → Bool) (e : Experience) :
    tryThumbUrl v e.Image =
      if isValidImageUrl v (firstThumbUrl e) then (firstThumbUrl e).getD "" else "" := by
  unfold tryThumbUrl firstThumbUrl firstAttachment
  cases hImg : e.Image with
  | none => simp [isValidImageUrl]
  | some lst =>
    cases lst with
    | nil => simp [isValidImageUrl]
    | cons a rest =>
      obtain ⟨aurl, ath⟩ := a
      cases ath with
      | none => simp [isValidImageUrl]
      | some th =>
        obtain ⟨thcc⟩ := th
        cases thcc with
        | none => simp [isValidImageUrl]
        | some cc =>
          obtain ⟨ccu⟩ := cc
          simp

theorem tryOrigUrl_eq (v : String → Bool) (e : Experience) :
    tryOrigUrl v e.Image =
      if isValidImageUrl v (firstOrigUrl e) then (firstOrigUrl e).getD "" else "" := by
  unfold tryOrigUrl firstOrigUrl firstAttachment
  cases hImg : e.Image with
  | none => simp [isValidImageUrl]
  | some lst =>
    cases lst with
    | nil => simp [isValidImageUrl]
    | cons a rest =>
      obtain ⟨aurl, ath⟩ := a
      cases aurl with
      | none => simp [isValidImageUrl]
      | some u =>
        by_cases h0 : u = ""
        · subst h0
          simp [isValidImageUrl]
        · simp [h0]

theorem formatExperienceData_imageUrl (v : String → Bool) (e : Experience) (lang : String) :
    (formatExperienceData v e lang).imageUrl = specImageResolve v e := by
  simp only [formatExperienceData, specImageResolve, tryDirectUrl_eq, tryThumbUrl_eq,
    tryOrigUrl_eq]
  cases h1 : isValidImageUrl v e.imageUrlField with
  | true =>
    have hne : jsTrim (e.imageUrlField.getD "") ≠ "" := by
      cases hf : e.imageUrlField with
      | none => rw [hf] at h1; simp [isValidImageUrl] at h1
      | some s =>
        rw [hf] at h1
        simp only [Option.getD_some]
        exact isValid_ne_empty v _ (by rw [isValidImageUrl_trim]; exact h1)
    simp [h1, hne]
  | false =>
    cases h2 : isValidImageUrl v (firstThumbUrl e) with
    | true =>
      have hne2 := isValid_getD_ne_empty v _ h2
      simp [h1, h2, hne2]
    | false =>
      cases h3 : isValidImageUrl v (firstOrigUrl e) with
      | true => simp [h1, h2, h3]
      | false => simp [h1, h2, h3]

theorem listStartsWith_append (pat t : List Char) : listStartsWith pat (pat ++ t) = true := by
  induction pat with
  | nil => rfl
  | cons a as ih => simp [listStartsWith, ih]

theorem listHasSub_of_startsWith (pat l : List Char) (h : listStartsWith pat l = true) :
    listHasSub pat l = true := by
  cases l with
  | nil =>
    cases pat with
    | nil => rfl
    | cons a as => simp [listStartsWith] at h
  | cons a rest => simp [listHasSub, h]

theorem strContains_of_append (pat rest : String) :
    strContains (pat ++ rest) pat = true := by
  unfold strContains
  have h : (pat ++ rest).toList = pat.toList ++ rest.toList := String.data_append pat rest
  rw [h]
  exact listHasSub_of_startsWith _ _ (listStartsWith_append _ _)

theorem httpErrorMessage_contains (status : Nat) :
    strContains (httpErrorMessage status) "HTTP error" = true := by
  unfold httpErrorMessage strContains
  have h1 : ("HTTP error! status: " ++ toString status).toList
      = "HTTP error".toList ++ ("! status: " ++ toString status).toList := by
    have heq : ("HTTP error! status: " : String) = "HTTP error" ++ "! status: " := by decide
    rw [heq]
    simp only [String.toList, String.data_append, List.append_assoc]
  rw [h1]
  exact listHasSub_of_startsWith _ _ (listStartsWith_append _ _)

theorem digits_all (s : String) : ∀ c ∈ digitsOf s, Char.isDigit c := by
  intro c hc
  exact (List.mem_filter.mp hc).2

theorem filter_take_digits (l : List Char) (hall : ∀ c ∈ l, Char.isDigit c) (n : Nat) :
    (l.take n).filter Char.isDigit = l.take n :=
  List.filter_eq_self.mpr fun a ha => hall a (List.mem_of_mem_take ha)

theorem filter_drop_digits (l : List Char) (hall : ∀ c ∈ l, Char.isDigit c) (n : Nat) :
    (l.drop n).filter Char.isDigit = l.drop n :=
  List.filter_eq_self.mpr fun a ha => hall a (List.mem_of_mem_drop ha)

theorem digit_chunks_11 (l : List Char) :
    l.take 2 ++ ((l.drop 2).take 5 ++ l.drop 7) = l := by
  have h7 : l.drop 7 = (l.drop 2).drop 5 := by rw [List.drop_drop]
  rw [h7, List.take_append_drop, List.take_append_drop]

theorem digit_chunks_10 (l : List Char) :
    l.take 2 ++ ((l.drop 2).take 4 ++ l.drop 6) = l := by
  have h6 : l.drop 6 = (l.drop 2).drop 4 := by rw [List.drop_drop]
  rw [h6, List.take_append_drop, List.take_append_drop]

theorem digitsOf_format (s : String) : digitsOf (formatBrazilianPhone s) = digitsOf s := by
  unfold formatBrazilianPhone
  have hall := digits_all s
  by_cases h11 : (digitsOf s).length = 11
  · rw [if_pos h11]
    show (('(' :: (digitsOf s).take 2 ++ ')' :: ' ' :: ((digitsOf s).drop 2).take 5
      ++ '-' :: (digitsOf s).drop 7).filter Char.isDigit) = digitsOf s
    simp only [List.filter_cons, List.filter_append]
    norm_num [filter_take_digits _ hall, filter_drop_digits _ hall,
      filter_take_digits ((digitsOf s).drop 2) (fun c hc => hall c (List.mem_of_mem_drop hc))]
    exact digit_chunks_11 _
  · rw [if_neg h11]
    by_cases h10 : (digitsOf s).length = 10
    · rw [if_pos h10]
      show (('(' :: (digitsOf s).take 2 ++ ')' :: ' ' :: ((digitsOf s).drop 2).take 4
        ++ '-' :: (digitsOf s).drop 6).filter Char.isDigit) = digitsOf s
      simp only [List.filter_cons, List.filter_append]
      norm_num [filter_take_digits _ hall, filter_drop_digits _ hall,
        filter_take_digits ((digitsOf s).drop 2) (fun c hc => hall c (List.mem_of_mem_drop hc))]
      exact digit_chunks_10 _
    · rw [if_neg h10]

theorem format_of_len11 (t : String) (h : (digitsOf t).length = 11) :
    formatBrazilianPhone t = String.mk ('(' :: (digitsOf t).take 2 ++ ')' :: ' '
      :: ((digitsOf t).drop 2).take 5 ++ '-' :: (digitsOf t).drop 7) := by
  unfold formatBrazilianPhone
  rw [if_pos h]

theorem format_of_len10 (t : String) (h : (digitsOf t).length = 10) :
    formatBrazilianPhone t = String.mk ('(' :: (digitsOf t).take 2 ++ ')' :: ' '
      :: ((digitsOf t).drop 2).take 4 ++ '-' :: (digitsOf t).drop 6) := by
  unfold formatBrazilianPhone
  rw [if_neg (by omega), if_pos h]

theorem format_of_other (t : String) (h11 : (digitsOf t).length ≠ 11)
    (h10 : (digitsOf t).length ≠ 10) : formatBrazilianPhone t = t := by
  unfold formatBrazilianPhone
  rw [if_neg h11, if_neg h10]

theorem format_idem_11 (p : String) (h11 : (digitsOf p).length = 11) :
    formatBrazilianPhone (formatBrazilianPhone p) = formatBrazilianPhone p := by
  rw [format_of_len11 (formatBrazilianPhone p) (by rw [digitsOf_format]; exact h11),
    digitsOf_format, ← format_of_len11 p h11]

theorem format_idem_10 (p : String) (h10 : (digitsOf p).length = 10) :
    formatBrazilianPhone (formatBrazilianPhone p) = formatBrazilianPhone p := by
  rw [format_of_len10 (formatBrazilianPhone p) (by rw [digitsOf_format]; exact h10),
    digitsOf_format, ← format_of_len10 p h10]

/-! ## Claims -/

/-- C3: for every input string, `validateBrazilianPhone` returns true iff
the string contains exactly 10 or exactly 11 digit characters after all
non-digit characters are stripped; in particular for pure digit strings it
accepts exactly the lengths 10 and 11. -/
theorem c3_phone_validation :
    (∀ s : String, validateBrazilianPhone s = true ↔
      ((digitsOf s).length = 10 ∨ (digitsOf s).length = 11)) ∧
    (∀ s : String, (∀ c ∈ s.toList, c.isDigit = true) →
      (validateBrazilianPhone s = true ↔ (s.toList.length = 10 ∨ s.toList.length = 11))) := by
  constructor
  · intro s
    simp [validateBrazilianPhone]
  · intro s h
    have hd : digitsOf s = s.toList := List.filter_eq_self.mpr h
    simp [validateBrazilianPhone, hd]

/-- C3 witness: the theorem applied at the pure 10-digit string
"2134567890" and at the 9-digit string "219876543". -/
theorem c3_phone_validation_witness :
    validateBrazilianPhone "2134567890" = true ∧ validateBrazilianPhone "219876543" = false := by
  constructor
  · exact (c3_phone_validation.2 "2134567890" (by decide)).mpr (Or.inl (by decide))
  · have h := (c3_phone_validation.2 "219876543" (by decide))
    cases hb : validateBrazilianPhone "219876543" with
    | false => rfl
    | true =>
      rcases h.mp hb with h10 | h11
      · exact absurd h10 (by decide)
      · exact absurd h11 (by decide)

/-- C4: `formatBrazilianPhone` strips non-digits and groups exactly 11
digits as (DD) DDDDD-DDDD, exactly 10 digits as (DD) DDDD-DDDD, and
returns the input unchanged for any other digit count; with the two
concrete examples from the specification. -/
theorem c4_phone_formatting :
    (∀ (s : String) (d1 d2 d3 d4 d5 d6 d7 d8 d9 d10 d11 : Char),
        digitsOf s = [d1, d2, d3, d4, d5, d6, d7, d8, d9, d10, d11] →
        formatBrazilianPhone s
          = String.mk ['(', d1, d2, ')', ' ', d3, d4, d5, d6, d7, '-', d8, d9, d10, d11]) ∧
    (∀ (s : String) (d1 d2 d3 d4 d5 d6 d7 d8 d9 d10 : Char),
        digitsOf s = [d1, d2, d3, d4, d5, d6, d7, d8, d9, d10] →
        formatBrazilianPhone s
          = String.mk ['(', d1, d2, ')', ' ', d3, d4, d5, d6, '-', d7, d8, d9, d10]) ∧
    (∀ s : String, (digitsOf s).length ≠ 10 → (digitsOf s).length ≠ 11 →
        formatBrazilianPhone s = s) ∧
    formatBrazilianPhone "21987654321" = "(21) 98765-4321" ∧
    formatBrazilianPhone "2134567890" = "(21) 3456-7890" := by
  refine ⟨?_, ?_, ?_, by decide, by decide⟩
  · intro s d1 d2 d3 d4 d5 d6 d7 d8 d9 d10 d11 hd
    rw [format_of_len11 s (by rw [hd]; rfl), hd]
    simp [List.take, List.drop]
  · intro s d1 d2 d3 d4 d5 d6 d7 d8 d9 d10 hd
    rw [format_of_len10 s (by rw [hd]; rfl), hd]
    simp [List.take, List.drop]
  · intro s h10 h11
    exact format_of_other s h11 h10

/-- C4 witness: the theorem applied at the concrete inputs "21987654321"
(11 digits), "21 3456-7890" (10 digits with separators), and "abc" (no
digits). -/
theorem c4_phone_formatting_witness :
    formatBrazilianPhone "21987654321"
      = String.mk ['(', '2', '1', ')', ' ', '9', '8', '7', '6', '5', '-', '4', '3', '2', '1'] ∧
    formatBrazilianPhone "21 3456-7890"
      = String.mk ['(', '2', '1', ')', ' ', '3', '4', '5', '6', '-', '7', '8', '9', '0'] ∧
    formatBrazilianPhone "abc" = "abc" :=
  ⟨c4_phone_formatting.1 "21987654321" '2' '1' '9' '8' '7' '6' '5' '4' '3' '2' '1' (by decide),
   c4_phone_formatting.2.1 "21 3456-7890" '2' '1' '3' '4' '5' '6' '7' '8' '9' '0' (by decide),
   c4_phone_formatting.2.2.1 "abc" (by decide) (by decide)⟩

/-- C10: `formatBrazilianPhone` is idempotent, because formatting strips
non-digit characters first and inserts only non-digit characters,
preserving the digit sequence. -/
theorem c10_format_phone_idempotent :
    ∀ p : String, formatBrazilianPhone (formatBrazilianPhone p) = formatBrazilianPhone p := by
  intro p
  by_cases h11 : (digitsOf p).length = 11
  · exact format_idem_11 p h11
  · by_cases h10 : (digitsOf p).length = 10
    · exact format_idem_10 p h10
    · rw [format_of_other p h11 h10, format_of_other p h11 h10]

/-- C5 (counterexample): `validateName` accepts "××", a two-character
string consisting of multiplication signs (U+00D7), which are neither
letters nor spaces nor hyphens — the regex range À-ÿ covers all of
U+00C0 – U+00FF, including the two non-letter code points × and ÷. -/
theorem c5_name_validation_counterexample :
    validateName "××" = true ∧ specNameValid "××" = false := by
  exact ⟨by decide, by decide⟩

/-- C5 (amended): `validateName` returns true iff the trimmed string has
at least 2 characters and every character lies in the regex class
`[a-zA-ZÀ-ÿ\s\-]` — ASCII letters, the whole Latin-1 range
U+00C0 – U+00FF (which also contains the non-letters × and ÷), JavaScript
whitespace, and the hyphen; in particular "Ana" is accepted and "A1" and
"" are rejected. -/
theorem c5_name_validation :
    (∀ s : String, validateName s = true ↔
      (2 ≤ (jsTrim s).toList.length ∧ ∀ c ∈ (jsTrim s).toList, nameClassChar c = true)) ∧
    validateName "Ana" = true ∧ validateName "A1" = false ∧ validateName "" = false := by
  refine ⟨fun s => ?_, by decide, by decide, by decide⟩
  simp [validateName, List.all_eq_true]

/-- C8: the request body built by `submitContact` carries the trimmed
name, the trimmed phone, the experience identifier wrapped as a
single-element list, and the `Parceiro_id` coupon field exactly when the
coupon argument is non-empty after trimming (in which case it holds the
trimmed coupon). -/
theorem c8_contact_request_body :
    ∀ (name whatsapp : String) (experienceId : Int) (cupom : String),
      (submitContactBody name whatsapp experienceId cupom).Name = jsTrim name ∧
      (submitContactBody name whatsapp experienceId cupom).Whatsapp = jsTrim whatsapp ∧
      (submitContactBody name whatsapp experienceId cupom).Experiencias = [experienceId] ∧
      ((submitContactBody name whatsapp experienceId cupom).Parceiro_id ≠ none ↔
        jsTrim cupom ≠ "") ∧
      ((submitContactBody name whatsapp experienceId cupom).Parceiro_id
          = some (jsTrim cupom) ↔ jsTrim cupom ≠ "") := by
  intro name whatsapp experienceId cupom
  unfold submitContactBody
  by_cases h0 : cupom = ""
  · subst h0
    have ht : jsTrim "" = "" := rfl
    simp [ht]
  · by_cases h1 : jsTrim cupom = "" <;> simp [h0, h1]

/-- C1 (counterexample): with name "A1" (invalid) and phone "123"
(invalid), the surfaced error is the name error, not the phone error —
`validateForm` pushes the name errors before the phone errors and
`handleFormSubmit` surfaces `validationErrors[0]`. -/
theorem c1_error_order_counterexample :
    validateName (jsTrim "A1") = false ∧
    validateBrazilianPhone (jsTrim "123") = false ∧
    (handleFormSubmit "A1" "123").surfacedError = some nameInvalidError ∧
    nameInvalidError ≠ whatsappInvalidError := by
  refine ⟨by decide, by decide, by decide, by decide⟩

/-- C1 (amended): when the phone is invalid the remote submission call is
never invoked; but when both the name and the phone fields are invalid the
NAME error is the first error surfaced, and the phone error surfaces only
when the name passes its checks. -/
theorem c1_validation_gate :
    (∀ rawName rawWhatsapp : String,
        validateBrazilianPhone (jsTrim rawWhatsapp) = false →
        (handleFormSubmit rawName rawWhatsapp).submitCalled = false) ∧
    (∀ rawName rawWhatsapp : String,
        jsTrim rawName ≠ "" → validateName (jsTrim rawName) = false →
        (handleFormSubmit rawName rawWhatsapp).surfacedError = some nameInvalidError) ∧
    (∀ rawName rawWhatsapp : String,
        jsTrim rawName ≠ "" → validateName (jsTrim rawName) = true →
        jsTrim rawWhatsapp ≠ "" → validateBrazilianPhone (jsTrim rawWhatsapp) = false →
        (handleFormSubmit rawName rawWhatsapp).surfacedError = some whatsappInvalidError) := by
  refine ⟨?_, ?_, ?_⟩
  · intro rawName rawWhatsapp hphone
    unfold handleFormSubmit validateForm
    by_cases hn : jsTrim rawName = "" <;>
      by_cases hv : validateName (jsTrim rawName) = true <;>
      by_cases hw : jsTrim rawWhatsapp = "" <;>
      simp_all
  · intro rawName rawWhatsapp hn hv
    unfold handleFormSubmit validateForm
    simp_all
  · intro rawName rawWhatsapp hn hv hw hphone
    unfold handleFormSubmit validateForm
    simp_all

/-- C1 witness: the amended theorem applied at the inputs
("Ana", "123") — valid name, invalid phone. -/
theorem c1_validation_gate_witness :
    (handleFormSubmit "Ana" "123").submitCalled = false ∧
    (handleFormSubmit "Ana" "123").surfacedError = some whatsappInvalidError :=
  ⟨c1_validation_gate.1 "Ana" "123" (by decide),
   c1_validation_gate.2.2 "Ana" "123" (by decide) (by decide) (by decide) (by decide)⟩

/-- C2: for every experience record, every language and every host URL
parser, `formatExperienceData` resolves the image URL by the
first-match-wins chain of the specification — direct image-URL field if
`isValidImageUrl` accepts it, otherwise the first attachment's card-cover
thumbnail URL, otherwise the first attachment's original URL, otherwise
the empty string; in particular a record carrying both a plausible direct
URL and a plausible attachment thumbnail resolves to the direct URL. -/
theorem c2_image_resolution_chain :
    (∀ (urlParses : String → Bool) (e : Experience) (language : String),
        (formatExperienceData urlParses e language).imageUrl = specImageResolve urlParses e) ∧
    (formatExperienceData (fun _ => true)
        (Experience.mk 1 (some "Trilha") none (some "d") none
          (some "https://example.com/images/direct.jpg")
          (some [Attachment.mk (some "https://example.com/images/orig.jpg")
            (some (Thumbnails.mk (some (CardCover.mk
              (some "https://example.com/images/thumb.jpg")))))]))
        "pt-br").imageUrl = "https://example.com/images/direct.jpg" := by
  exact ⟨formatExperienceData_imageUrl, by decide⟩

/-- C6: `formatExperienceData` never returns an empty name or description:
the selected locale's field is returned when non-empty and the fixed
placeholder is substituted exactly when that field is missing or empty. -/
theorem c6_placeholder_substitution :
    ∀ (urlParses : String → Bool) (e : Experience) (lang : String),
      (formatExperienceData urlParses e lang).name ≠ "" ∧
      (formatExperienceData urlParses e lang).description ≠ "" ∧
      ((selectedName e lang = none ∨ selectedName e lang = some "") →
        (formatExperienceData urlParses e lang).name = "Experiência sem nome") ∧
      (∀ n, selectedName e lang = some n → n ≠ "" →
        (formatExperienceData urlParses e lang).name = n) ∧
      ((selectedDescription e lang = none ∨ selectedDescription e lang = some "") →
        (formatExperienceData urlParses e lang).description = "Descrição não disponível") ∧
      (∀ d, selectedDescription e lang = some d → d ≠ "" →
        (formatExperienceData urlParses e lang).description = d) := by
  intro urlParses e lang
  have hname : (formatExperienceData urlParses e lang).name =
      (match selectedName e lang with
       | some n => if n ≠ "" then n else "Experiência sem nome"
       | none => "Experiência sem nome") := rfl
  have hdesc : (formatExperienceData urlParses e lang).description =
      (match selectedDescription e lang with
       | some d => if d ≠ "" then d else "Descrição não disponível"
       | none => "Descrição não disponível") := rfl
  rw [hname, hdesc]
  refine ⟨?_, ?_, ?_, ?_, ?_, ?_⟩
  · cases hn : selectedName e lang with
    | none => decide
    | some n =>
      by_cases h0 : n = ""
      · subst h0; decide
      · simp [h0]
  · cases hd : selectedDescription e lang with
    | none => decide
    | some d =>
      by_cases h0 : d = ""
      · subst h0; decide
      · simp [h0]
  · rintro (hn | hn) <;> simp [hn]
  · intro n hn h0
    rw [hn]
    simp [h0]
  · rintro (hd | hd) <;> simp [hd]
  · intro d hd h0
    rw [hd]
    simp [h0]

/-- C6 witness: the theorem applied at a record whose pt-br name is the
empty string and whose pt-br description is missing. -/
theorem c6_placeholder_substitution_witness :
    (formatExperienceData (fun _ => false)
        (Experience.mk 2 (some "") (some "Tour") none (some "d") none none)
        "pt-br").name = "Experiência sem nome" ∧
    (formatExperienceData (fun _ => false)
        (Experience.mk 2 (some "") (some "Tour") none (some "d") none none)
        "pt-br").description = "Descrição não disponível" :=
  ⟨(c6_placeholder_substitution (fun _ => false) _ "pt-br").2.2.1 (Or.inr rfl),
   (c6_placeholder_substitution (fun _ => false) _ "pt-br").2.2.2.2.1 (Or.inl rfl)⟩

theorem loadTranslationsForLanguage_frame
    (loadTr : String → Except Unit (List (String × String))) (st : AppState)
    (language : String) :
    (loadTranslationsForLanguage loadTr st language).1.cachedData = st.cachedData ∧
    (loadTranslationsForLanguage loadTr st language).1.isLoading = st.isLoading ∧
    Effect.fetchExperiences ∉ (loadTranslationsForLanguage loadTr st language).2.1 := by
  unfold loadTranslationsForLanguage
  cases loadTr language with
  | ok tr => simp
  | error u =>
    by_cases hl : language ≠ "pt-br"
    · rw [if_pos hl]
      cases loadTr "pt-br" with
      | ok tr => simp
      | error u2 => simp
    · rw [if_neg hl]
      simp

/-- C7: once the cached experience list is populated, a language change
leaves it unchanged, never emits a `fetchExperiences` effect, and leaves
the loading flag untouched — only the translations and the re-rendered
output may change. -/
theorem c7_language_switch_uses_cache :
    ∀ (loadTr : String → Except Unit (List (String × String))) (st : AppState)
      (newLang : String) (d : List Experience),
      st.cachedData = some d →
      (handleLanguageChange loadTr st newLang).1.cachedData = some d ∧
      Effect.fetchExperiences ∉ (handleLanguageChange loadTr st newLang).2.1 ∧
      (handleLanguageChange loadTr st newLang).1.isLoading = st.isLoading := by
  intro loadTr st newLang d hcache
  unfold handleLanguageChange
  by_cases heq : newLang = st.currentLang
  · rw [if_pos heq]
    exact ⟨hcache, by simp, rfl⟩
  · rw [if_neg heq]
    obtain ⟨hA, hB, hC⟩ :=
      loadTranslationsForLanguage_frame loadTr { st with currentLang := newLang } newLang
    by_cases hok : (loadTranslationsForLanguage loadTr { st with currentLang := newLang }
        newLang).2.2 = true
    · rw [if_pos hok]
      by_cases hsome : (loadTranslationsForLanguage loadTr { st with currentLang := newLang }
          newLang).1.cachedData.isSome = true
      · rw [if_pos hsome]
        refine ⟨by rw [hA]; exact hcache, ?_, by rw [hB]⟩
        intro hmem
        rcases List.mem_append.mp hmem with h | h
        · exact hC h
        · simp at h
      · rw [if_neg hsome]
        exact ⟨by rw [hA]; exact hcache, hC, by rw [hB]⟩
    · rw [if_neg hok]
      exact ⟨by rw [hA]; exact hcache, hC, by rw [hB]⟩

/-- C7 witness: the theorem applied at a state whose cache holds one
record, switching from pt-br to en-us with a loader that succeeds. -/
theorem c7_language_switch_uses_cache_witness :
    (handleLanguageChange (fun _ => Except.ok [("contato-whatsapp", "Contact us")])
        (AppState.mk "pt-br" (some [Experience.mk 1 (some "Trilha") none (some "d") none
          none none]) [] false) "en-us").1.cachedData
      = some [Experience.mk 1 (some "Trilha") none (some "d") none none none] ∧
    Effect.fetchExperiences ∉
      (handleLanguageChange (fun _ => Except.ok [("contato-whatsapp", "Contact us")])
        (AppState.mk "pt-br" (some [Experience.mk 1 (some "Trilha") none (some "d") none
          none none]) [] false) "en-us").2.1 ∧
    (handleLanguageChange (fun _ => Except.ok [("contato-whatsapp", "Contact us")])
        (AppState.mk "pt-br" (some [Experience.mk 1 (some "Trilha") none (some "d") none
          none none]) [] false) "en-us").1.isLoading = false :=
  c7_language_switch_uses_cache _ _ "en-us" _ rfl

theorem classifySubmitError_cases (e : JsError) :
    classifySubmitError e = serverErrorMessage ∨
    classifySubmitError e = connectionErrorMessage ∨
    classifySubmitError e = genericErrorMessage := by
  unfold classifySubmitError
  by_cases h1 : strContains e.message "HTTP error" = true
  · rw [if_pos h1]; exact Or.inl rfl
  · rw [if_neg h1]
    by_cases h2 : ((e.name == "TypeError") && strContains e.message "fetch") = true
    · rw [if_pos h2]; exact Or.inr (Or.inl rfl)
    · rw [if_neg h2]; exact Or.inr (Or.inr rfl)

/-- C9 (counterexample): a non-2xx HTTP response does NOT always surface
the server-error message — `submitContact` calls `response.json()` before
checking `response.ok`, so a 500 response whose body is not valid JSON
throws the parse error first, and the catch block surfaces the generic
fallback message instead of the server-error message. -/
theorem c9_http_error_counterexample :
    submitContactResult (FetchResult.fetchResolves (HttpResponse.mk false 500
        (JsonResult.parseError (JsError.mk "SyntaxError" "Unexpected end of JSON input"))))
      = SubmitResult.failure genericErrorMessage ∧
    genericErrorMessage ≠ serverErrorMessage := by
  exact ⟨by decide, by decide⟩

/-- C9 (amended): every failure of `submitContact` is surfaced as one of
exactly three fixed user-facing messages, and the underlying cause is
never re-surfaced; the classification is: the server-error message for a
non-2xx HTTP response whose body parses as JSON, the connectivity message
for a network-level `fetch` TypeError, and the generic fallback for any
other failure — including a non-2xx response whose body fails to parse,
because `response.json()` runs before the `response.ok` check. -/
theorem c9_submit_error_messages :
    (∀ (fr : FetchResult) (msg : String), submitContactResult fr = SubmitResult.failure msg →
        msg = serverErrorMessage ∨ msg = connectionErrorMessage ∨
        msg = genericErrorMessage) ∧
    (∀ (status : Nat) (d : List (String × String)),
        submitContactResult (FetchResult.fetchResolves (HttpResponse.mk false status
            (JsonResult.parsed d))) = SubmitResult.failure serverErrorMessage) ∧
    (∀ e : JsError, e.name = "TypeError" → strContains e.message "fetch" = true →
        strContains e.message "HTTP error" = false →
        submitContactResult (FetchResult.fetchRejects e)
          = SubmitResult.failure connectionErrorMessage) ∧
    (∀ e : JsError, strContains e.message "HTTP error" = false →
        ((e.name == "TypeError") && strContains e.message "fetch") = false →
        submitContactResult (FetchResult.fetchRejects e)
          = SubmitResult.failure genericErrorMessage) ∧
    (∀ (status : Nat) (e : JsError), strContains e.message "HTTP error" = false →
        ((e.name == "TypeError") && strContains e.message "fetch") = false →
        submitContactResult (FetchResult.fetchResolves (HttpResponse.mk false status
            (JsonResult.parseError e))) = SubmitResult.failure genericErrorMessage) := by
  refine ⟨?_, ?_, ?_, ?_, ?_⟩
  · intro fr msg h
    unfold submitContactResult at h
    cases ha : submitContactAttempt fr with
    | returned d => rw [ha] at h; cases h
    | thrown e =>
      rw [ha] at h
      cases h
      exact classifySubmitError_cases e
  · intro status d
    simp [submitContactResult, submitContactAttempt, classifySubmitError,
      httpErrorMessage_contains status]
  · intro e h1 h2 h3
    simp [submitContactResult, submitContactAttempt, classifySubmitError, h1, h2, h3]
  · intro e h1 h2
    simp [submitContactResult, submitContactAttempt, classifySubmitError, h1, h2]
  · intro status e h1 h2
    simp [submitContactResult, submitContactAttempt, classifySubmitError, h1, h2]

/-- C9 witness: the amended theorem applied at a 500 response with a JSON
body, at a network-level fetch TypeError, at a rejected AbortError, and at
a 502 response with an unparseable body. -/
theorem c9_submit_error_messages_witness :
    submitContactResult (FetchResult.fetchResolves (HttpResponse.mk false 500
        (JsonResult.parsed [("error", "Insufficient permissions")])))
      = SubmitResult.failure serverErrorMessage ∧
    submitContactResult (FetchResult.fetchRejects
        (JsError.mk "TypeError" "Failed to fetch"))
      = SubmitResult.failure connectionErrorMessage ∧
    submitContactResult (FetchResult.fetchRejects
        (JsError.mk "AbortError" "The operation was aborted"))
      = SubmitResult.failure genericErrorMessage ∧
    submitContactResult (FetchResult.fetchResolves (HttpResponse.mk false 502
        (JsonResult.parseError (JsError.mk "SyntaxError" "Unexpected token < in JSON"))))
      = SubmitResult.failure genericErrorMessage :=
  ⟨c9_submit_error_messages.2.1 500 [("error", "Insufficient permissions")],
   c9_submit_error_messages.2.2.1 (JsError.mk "TypeError" "Failed to fetch")
      rfl (by decide) (by decide),
   c9_submit_error_messages.2.2.2.1 (JsError.mk "AbortError" "The operation was aborted")
      (by decide) (by decide),
   c9_submit_error_messages.2.2.2.2 502 (JsError.mk "SyntaxError" "Unexpected token < in JSON")
      (by decide) (by decide)⟩
